import Mathlib

/-!
Verification development for the Lumi editor extension
(src/extension.ts and the webview chat component).

The integration layer is embedded shallowly:

* The module-level mutable variables of extension.ts
  (backendProcess, currentPanel) together with the per-spawn closure
  variable isBackendReady become the fields of ExtState; each event
  handler of the source becomes a pure function
  ExtState to ExtState paired with a list of externally visible effects
  (spawning, panel creation/reveal/disposal, error notifications,
  killing the worker).
* The asset-path rewriting of getWebviewContent (a global JavaScript
  regex replace) becomes a character-list scanner with the same
  leftmost, non-overlapping, lazy-capture semantics.
* The chat component of the webview (handleSend) becomes a pure
  function of the component state and of the outcome of the single
  HTTP POST it issues.

Strings are modelled as lists of characters.
-/

abbrev Str := List Char

/-- Substring containment, modelling the JavaScript String.includes test:
the needle occurs iff it is a prefix of some suffix of the haystack. -/
def containsSub (hay needle : Str) : Bool :=
  hay.tails.any (fun t => List.isPrefixOf needle t)

/-- Readiness marker scanned for on the worker diagnostic stream
(extension.ts line 51). -/
def readyMarker : Str := "Application startup complete".toList

/-- Error marker (extension.ts line 58). -/
def errMarker : Str := "ERROR".toList

/-- Warning marker (extension.ts line 58). -/
def warnMarker : Str := "Warning".toList

/-- Informational marker (extension.ts line 58). -/
def infoMarker : Str := "INFO".toList

/-- Notification text of the missing-binary failure (extension.ts line 37). -/
def missingBinaryMsg : Str :=
  "Lumi backend (lumi_backend.exe) not found. Extension might be corrupt.".toList

/-- Notification text prefix of an error line popup (extension.ts line 59). -/
def backendErrPrefix : Str := "Lumi Backend Error: ".toList

/-- Notification text prefix of a spawn failure (extension.ts line 73). -/
def spawnFailPrefix : Str := "Failed to start Lumi backend: ".toList

/-- State of the extension host side: the two module-level handles of
extension.ts plus the per-spawn readiness closure variable.
backendProcess and currentPanel are true exactly when the corresponding
variable is not undefined. -/
structure ExtState where
  backendProcess : Bool
  isBackendReady : Bool
  currentPanel : Bool
deriving DecidableEq

/-- Externally visible actions performed by the extension code.
Columns are modelled as natural numbers, ViewColumn.One being 1; a
reveal carries the column argument passed to WebviewPanel.reveal,
none modelling an undefined argument. -/
inductive Effect where
  | spawnWorker
  | createPanel (col : Nat)
  | revealPanel (col : Option Nat)
  | disposePanel
  | errorNotice (msg : Str)
  | killWorker
deriving DecidableEq

def isCreatePanel : Effect → Bool
  | .createPanel _ => true
  | _ => false

def isSpawnWorker : Effect → Bool
  | .spawnWorker => true
  | _ => false

def isErrorNotice : Effect → Bool
  | .errorNotice _ => true
  | _ => false

def isKillWorker : Effect → Bool
  | .killWorker => true
  | _ => false

/-- Panel controller (extension.ts lines 85 to 118): if a panel exists,
reveal it at the column of the active text editor when there is one and
with an undefined column argument otherwise; if no panel exists, create
one at that column defaulted to ViewColumn.One, and register the
disposal callback. activeCol is the view column of the currently active
text editor, none when there is no active editor. -/
def createOrShowWebviewPanel (activeCol : Option Nat) (s : ExtState) :
    ExtState × List Effect :=
  if s.currentPanel then
    (s, [Effect.revealPanel activeCol])
  else
    ({ s with currentPanel := true }, [Effect.createPanel (activeCol.getD 1)])

/-- Handler of the lumi.start command (extension.ts lines 24 to 81):
an open panel is revealed at the fixed column ViewColumn.One; otherwise
a missing worker is spawned after the binary check, and a running worker
leads straight to the panel controller. binaryExists models the
fs.existsSync check on the worker executable path. -/
def lumiStartCommand (binaryExists : Bool) (activeCol : Option Nat)
    (s : ExtState) : ExtState × List Effect :=
  if s.currentPanel then
    (s, [Effect.revealPanel (some 1)])
  else if !s.backendProcess then
    if !binaryExists then
      (s, [Effect.errorNotice missingBinaryMsg])
    else
      ({ s with backendProcess := true, isBackendReady := false },
        [Effect.spawnWorker])
  else
    createOrShowWebviewPanel activeCol s

/-- Classification of a diagnostic line as a user-visible error popup
(extension.ts line 58): an error or warning marker present and the
informational marker absent. -/
def classifyErrorLine (line : Str) : Bool :=
  (containsSub line errMarker || containsSub line warnMarker) &&
    !containsSub line infoMarker

/-- Handler attached to the worker diagnostic stream (extension.ts
lines 46 to 61): on the first line containing the readiness marker the
readiness flag is set and the panel controller is invoked; a line
classified as an error is surfaced as a notification. -/
def stderrOnData (activeCol : Option Nat) (line : Str) (s : ExtState) :
    ExtState × List Effect :=
  let step1 : ExtState × List Effect :=
    if containsSub line readyMarker && !s.isBackendReady then
      createOrShowWebviewPanel activeCol { s with isBackendReady := true }
    else
      (s, [])
  let popup : List Effect :=
    if classifyErrorLine line then
      [Effect.errorNotice (backendErrPrefix ++ line)]
    else
      []
  (step1.1, step1.2 ++ popup)

/-- Handler of worker process exit (extension.ts lines 63 to 69): the
worker handle is cleared and, if a panel is open, it is disposed, which
runs the disposal callback clearing the panel handle. -/
def processOnExit (s : ExtState) : ExtState × List Effect :=
  let s1 := { s with backendProcess := false }
  if s1.currentPanel then
    ({ s1 with currentPanel := false }, [Effect.disposePanel])
  else
    (s1, [])

/-- Handler of a spawn failure (extension.ts lines 71 to 75): a
notification is shown and the worker handle is cleared; the panel is
left alone. -/
def processOnError (msg : Str) (s : ExtState) : ExtState × List Effect :=
  ({ s with backendProcess := false },
    [Effect.errorNotice (spawnFailPrefix ++ msg)])

/-- Disposal callback registered on the panel (extension.ts lines 114
to 117): the panel handle is cleared and nothing else happens; in
particular the worker is not stopped. -/
def panelOnDidDispose (s : ExtState) : ExtState × List Effect :=
  ({ s with currentPanel := false }, [])

/-- Teardown disposable registered at activation (extension.ts lines 12
to 20): dispose the panel if open, then kill the worker if running. -/
def deactivateDisposable (s : ExtState) : ExtState × List Effect :=
  let step1 : ExtState × List Effect :=
    if s.currentPanel then
      ({ s with currentPanel := false }, [Effect.disposePanel])
    else
      (s, [])
  if step1.1.backendProcess then
    ({ step1.1 with backendProcess := false }, step1.2 ++ [Effect.killWorker])
  else
    step1

/-- Events driving the extension state machine from the single event
loop: a start command invocation (with the result of the binary check
and the active editor column as environment inputs), a chunk arriving
on the worker diagnostic stream, worker exit (with its code and
signal), the user closing the panel, and a spawn failure. -/
inductive Event where
  | start (binaryExists : Bool) (activeCol : Option Nat)
  | stderrLine (activeCol : Option Nat) (line : Str)
  | workerExit (code : Option Int) (signal : Option Str)
  | panelClose
  | spawnError (msg : Str)
deriving DecidableEq

/-- One event-loop step: process handlers only fire while the worker
handle is live (they are attached to the spawned process) and the panel
disposal callback only fires while a panel is open. -/
def step (s : ExtState) : Event → ExtState × List Effect
  | .start b col => lumiStartCommand b col s
  | .stderrLine col line =>
      if s.backendProcess then stderrOnData col line s else (s, [])
  | .workerExit _ _ =>
      if s.backendProcess then processOnExit s else (s, [])
  | .panelClose =>
      if s.currentPanel then panelOnDidDispose s else (s, [])
  | .spawnError msg =>
      if s.backendProcess then processOnError msg s else (s, [])

/-- Run a trace of events, collecting all effects in order. -/
def run : ExtState → List Event → ExtState × List Effect
  | s, [] => (s, [])
  | s, e :: es =>
      let first := step s e
      let rest := run first.1 es
      (rest.1, first.2 ++ rest.2)

/-- State at extension activation: no worker, no panel. -/
def initState : ExtState := ⟨false, false, false⟩

/-- Number of start command invocations in a trace. -/
def countStarts : List Event → Nat
  | [] => 0
  | .start _ _ :: es => countStarts es + 1
  | _ :: es => countStarts es

/-- An event observes the readiness marker iff it is a diagnostic chunk
containing the marker delivered while the worker is live. -/
def isMarkerEvent (s : ExtState) : Event → Bool
  | .stderrLine _ line => s.backendProcess && containsSub line readyMarker
  | _ => false

/-- True iff, along the trace, some panel-creation effect happens
strictly before the first observation of the readiness marker (an
observation in the very event that creates the panel counts as before
the creation). seen records whether the marker was already observed. -/
def panelBeforeMarker : ExtState → Bool → List Event → Bool
  | _, _, [] => false
  | s, seen, e :: es =>
      ((step s e).2.any isCreatePanel && !(seen || isMarkerEvent s e)) ||
        panelBeforeMarker (step s e).1 (seen || isMarkerEvent s e) es

/-- Role of a conversation entry in the webview chat component. -/
inductive Role where
  | user
  | bot
deriving DecidableEq

/-- One search-result record of the HTTP response body. -/
structure ResultRec where
  name : Str
  path : Str
deriving DecidableEq

/-- One conversation entry of the chat component. text is an Option
because the assistant entry copies the message field of the parsed
response, which may be absent at runtime. -/
structure ChatMessage where
  role : Role
  text : Option Str
  results : Option (List ResultRec)
deriving DecidableEq

/-- Fixed generic assistant error entry text (App component, catch
branch of handleSend). -/
def relayErrorText : Str := "오류가 발생했습니다. 백엔드 연결을 확인하세요.".toList

/-- User entry appended optimistically by handleSend. -/
def userEntry (msg : Str) : ChatMessage := ⟨Role.user, some msg, none⟩

/-- Assistant entry built from the parsed response fields, copied
verbatim. -/
def botReply (message : Option Str) (results : Option (List ResultRec)) :
    ChatMessage := ⟨Role.bot, message, results⟩

/-- Fixed generic assistant error entry. -/
def errorEntry : ChatMessage := ⟨Role.bot, some relayErrorText, none⟩

/-- Component state of the chat relay: the input field, the
conversation log, and the single-flight flag. -/
structure ChatState where
  input : Str
  messages : List ChatMessage
  isLoading : Bool
deriving DecidableEq

/-- Whitespace for the JavaScript trim used by the send gate. -/
def isJsWs (c : Char) : Bool :=
  c = ' ' || c = '\t' || c = '\n' || c = '\r' ||
    c = '\x0b' || c = '\x0c' || c = '\u00A0' || c = '\uFEFF'

/-- JavaScript String.trim: strip whitespace from both ends. -/
def jsTrim (s : Str) : Str :=
  ((s.dropWhile isJsWs).reverse.dropWhile isJsWs).reverse

/-- Parsed JSON response bodies the relay can receive: the JSON value
null, on which any property access throws, or an object carrying
optional message and results fields. A JSON object with neither field,
or with extra fields, is a jobj with absent fields: its property
accesses yield undefined without throwing. -/
inductive JsonBody where
  | jnull
  | jobj (message : Option Str) (results : Option (List ResultRec))
deriving DecidableEq

/-- Outcome of the single HTTP POST issued by handleSend: the fetch
promise rejecting, the json parse rejecting, or a successfully parsed
body. -/
inductive PostOutcome where
  | fetchError
  | parseError
  | ok (body : JsonBody)
deriving DecidableEq

/-- Construction of the assistant success entry from the parsed body,
embedding the object literal with the data.message and data.results
accesses of the webview component: on a null body the property access
throws a TypeError, so no entry results; on an object body the two
fields are copied verbatim, absent fields staying absent. -/
def buildReply : JsonBody → Option ChatMessage
  | .jnull => none
  | .jobj m r => some (botReply m r)

/-- Synchronous phase of handleSend up to the fetch call: the gate
rejects blank-after-trim input and rejects while a request is
outstanding; an accepted send clears the input, appends the user entry
and raises the single-flight flag. The returned Option is the body of
the network request issued, the raw user text sent as user_query; none
means no request was issued. -/
def sendBegin (s : ChatState) : ChatState × Option Str :=
  if (jsTrim s.input).isEmpty || s.isLoading then
    (s, none)
  else
    (⟨[], s.messages ++ [userEntry s.input], true⟩, some s.input)

/-- Continuation of handleSend after the POST settles: the try branch
appends the assistant entry built from the parsed body, the catch
branch appends the fixed error entry on a fetch or parse rejection,
and the finally branch clears the single-flight flag. When the entry
construction itself throws (null body), the source determines only
that no success entry is appended and that the flag still ends
cleared: the thrown TypeError is either raised inside the state-update
call and caught by the same catch, or raised later when the framework
evaluates the queued updater, depending on framework scheduling the
source does not fix. The model records the cleared flag and an
unchanged conversation for that arm; no theorem below relies on the
message list of that arm. -/
def sendComplete (outcome : PostOutcome) (s : ChatState) : ChatState :=
  match outcome with
  | .ok body =>
      match buildReply body with
      | some reply =>
          { s with messages := s.messages ++ [reply], isLoading := false }
      | none => { s with isLoading := false }
  | .fetchError =>
      { s with messages := s.messages ++ [errorEntry], isLoading := false }
  | .parseError =>
      { s with messages := s.messages ++ [errorEntry], isLoading := false }

/-- Whole handleSend run to completion, the outcome of its single POST
supplied by the environment. -/
def handleSend (outcome : PostOutcome) (s : ChatState) :
    ChatState × Option Str :=
  match sendBegin s with
  | (s1, some body) => (sendComplete outcome s1, some body)
  | (s1, none) => (s1, none)

/-- Attribute names matched by the asset-rewriting pattern of
getWebviewContent (extension.ts lines 144 to 147). -/
inductive Attr where
  | src
  | href
deriving DecidableEq

def Attr.toStr : Attr → Str
  | .src => ['s', 'r', 'c']
  | .href => ['h', 'r', 'e', 'f']

/-- Literal part of the pattern after the attribute name: an equals
sign, an opening quote, then the dot-slash-assets-slash path prefix. -/
def midStr : Str := ['=', '"', '.', '/', 'a', 's', 's', 'e', 't', 's', '/']

/-- Full trigger of a src attribute reference. -/
def srcTrig : Str := Attr.src.toStr ++ midStr

/-- Full trigger of an href attribute reference. -/
def hrefTrig : Str := Attr.href.toStr ++ midStr

/-- Slash-assets-slash segment of the replacement text. -/
def slashAssets : Str := ['/', 'a', 's', 's', 'e', 't', 's', '/']

/-- Line terminators, which the lazy dot of the pattern never matches. -/
def isLineTerm (c : Char) : Bool :=
  c = '\n' || c = '\r' || c = '\u2028' || c = '\u2029'

/-- Scan the lazily captured asset name: consume characters up to the
first closing quote; fail if a line terminator or the end of input
comes first. Returns the captured name and the input after the quote. -/
def scanName : Str → Option (Str × Str)
  | [] => none
  | c :: cs =>
      if c = '"' then some ([], cs)
      else if isLineTerm c then none
      else
        match scanName cs with
        | some (n, rest) => some (c :: n, rest)
        | none => none

/-- Replacement produced for one matched reference: the attribute name,
the equals sign and quote, the translated bundle root, the assets
segment, the captured name and the closing quote. -/
def renderRefRW (base : Str) (a : Attr) (n : Str) : Str :=
  a.toStr ++ ['=', '"'] ++ base ++ slashAssets ++ n ++ ['"']

/-- Try to match one alternative of the pattern at the head of the
input; on success return the replacement and the rest of the input. -/
def tryMatchAttr (base : Str) (a : Attr) (cs : Str) : Option (Str × Str) :=
  if List.isPrefixOf (a.toStr ++ midStr) cs then
    match scanName (cs.drop (a.toStr ++ midStr).length) with
    | some (n, rest) => some (renderRefRW base a n, rest)
    | none => none
  else none

/-- Try the two alternatives of the pattern at the head of the input,
src first as in the source regex. -/
def tryMatch (base : Str) (cs : Str) : Option (Str × Str) :=
  match tryMatchAttr base Attr.src cs with
  | some r => some r
  | none => tryMatchAttr base Attr.href cs

/-- Fuel-indexed scanner body of the global regex replace: at each
position, replace a leftmost match and resume after it, otherwise copy
one character. -/
def rewriteAux (base : Str) : Nat → Str → Str
  | _, [] => []
  | 0, cs => cs
  | fuel + 1, c :: cs =>
      match tryMatch base (c :: cs) with
      | some (rep, rest) => rep ++ rewriteAux base fuel rest
      | none => c :: rewriteAux base fuel cs

/-- The asset-reference rewriting of getWebviewContent: the global
replace of the src-or-href dot-slash-assets pattern over the whole
document, base being the translated bundle directory URI. -/
def rewriteAssets (base cs : Str) : Str := rewriteAux base cs.length cs

/-- Unrewritten form of one asset reference as it appears in the input
document. -/
def renderRef (a : Attr) (n : Str) : Str :=
  a.toStr ++ midStr ++ n ++ ['"']

/-- A document presented as a leading filler followed by asset
references each trailed by a filler. -/
def renderParts : List (Attr × Str × Str) → Str
  | [] => []
  | (a, n, f) :: ps => renderRef a n ++ f ++ renderParts ps

def renderDoc (f0 : Str) (ps : List (Attr × Str × Str)) : Str :=
  f0 ++ renderParts ps

/-- The same document with every reference rewritten against the same
translated root, fillers untouched: the output the spec promises. -/
def renderPartsRW (base : Str) : List (Attr × Str × Str) → Str
  | [] => []
  | (a, n, f) :: ps => renderRefRW base a n ++ f ++ renderPartsRW base ps

def renderDocRW (base : Str) (f0 : Str) (ps : List (Attr × Str × Str)) : Str :=
  f0 ++ renderPartsRW base ps

/-- A filler is good when no suffix of it begins with either trigger,
that is, neither trigger occurs inside it. -/
def goodFiller (f : Str) : Bool :=
  f.tails.all (fun t =>
    !(List.isPrefixOf srcTrig t) && !(List.isPrefixOf hrefTrig t))

/-- A captured name is good when it contains neither a quote nor a line
terminator, so the lazy capture ends exactly at the closing quote. -/
def goodName (n : Str) : Bool :=
  n.all (fun c => !(c = '"') && !(isLineTerm c))

/-- The input right after a good filler: either the document ends or an
asset reference begins. -/
def RestOk (rest : Str) : Prop :=
  rest = [] ∨ ∃ a n r2, rest = renderRef a n ++ r2

/-- State of a normal fully started session: worker running and ready,
panel open. -/
def openReadyState : ExtState := ⟨true, true, true⟩

/-- Modelled from the spec: the preferred display column, the column of
the currently active editing surface when one exists and the fixed
default column One otherwise. Stated for comparison against what the
reveal paths of the code actually pass. -/
def specPreferredColumn (activeCol : Option Nat) : Nat := activeCol.getD 1

/-- C2: with the worker already running and ready and the panel open,
two successive start invocations leave the state unchanged, reveal the
existing panel on each invocation, spawn no worker and create no
panel. -/
theorem lumiStart_idempotent_when_ready (s : ExtState)
    (hw : s.backendProcess = true) (hr : s.isBackendReady = true)
    (hp : s.currentPanel = true) (b1 b2 : Bool) (col1 col2 : Option Nat) :
    run s [Event.start b1 col1, Event.start b2 col2] =
      (s, [Effect.revealPanel (some 1), Effect.revealPanel (some 1)]) ∧
    (run s [Event.start b1 col1, Event.start b2 col2]).2.any
        isSpawnWorker = false ∧
    (run s [Event.start b1 col1, Event.start b2 col2]).2.any
        isCreatePanel = false := by
  simp [run, step, lumiStartCommand, hp, isSpawnWorker, isCreatePanel]

/-- Witness for C2 at the concrete fully started state. -/
theorem lumiStart_idempotent_when_ready_witness :
    run openReadyState [Event.start true (some 2), Event.start false none] =
      (openReadyState,
        [Effect.revealPanel (some 1), Effect.revealPanel (some 1)]) :=
  (lumiStart_idempotent_when_ready openReadyState rfl rfl rfl
    true false (some 2) none).1

/-- C3: whenever the worker process exits, for any code and signal, the
exit handler clears the worker handle and the panel handle, and
disposes the panel when one was open. -/
theorem processExit_cascading_teardown (s : ExtState)
    (code : Option Int) (sig : Option Str) (hw : s.backendProcess = true) :
    (step s (Event.workerExit code sig)).1.backendProcess = false ∧
    (step s (Event.workerExit code sig)).1.currentPanel = false ∧
    (s.currentPanel = true →
      (step s (Event.workerExit code sig)).2 = [Effect.disposePanel]) := by
  cases hp : s.currentPanel <;> simp [step, processOnExit, hw, hp]

/-- Witness for C3: worker exit with code 1 while the panel is open. -/
theorem processExit_cascading_teardown_witness :
    (step openReadyState (Event.workerExit (some 1) none)).1.backendProcess
        = false ∧
    (step openReadyState (Event.workerExit (some 1) none)).1.currentPanel
        = false ∧
    (step openReadyState (Event.workerExit (some 1) none)).2 =
        [Effect.disposePanel] :=
  ⟨(processExit_cascading_teardown openReadyState (some 1) none rfl).1,
    (processExit_cascading_teardown openReadyState (some 1) none rfl).2.1,
    (processExit_cascading_teardown openReadyState (some 1) none rfl).2.2 rfl⟩

/-- C4: the disposal callback run when the user closes the panel clears
the panel handle and nothing else: the worker handle and the readiness
flag are untouched and no effect at all is produced, in particular the
worker is not killed. -/
theorem panelClose_frame_effect (s : ExtState) (hp : s.currentPanel = true) :
    (step s Event.panelClose).1.backendProcess = s.backendProcess ∧
    (step s Event.panelClose).1.isBackendReady = s.isBackendReady ∧
    (step s Event.panelClose).1.currentPanel = false ∧
    (step s Event.panelClose).2 = [] := by
  simp [step, panelOnDidDispose, hp]

/-- Witness for C4: closing the panel of a fully started session leaves
the worker running. -/
theorem panelClose_frame_effect_witness :
    (step openReadyState Event.panelClose).1.backendProcess = true ∧
    (step openReadyState Event.panelClose).2 = [] :=
  ⟨(panelClose_frame_effect openReadyState rfl).1,
    (panelClose_frame_effect openReadyState rfl).2.2.2⟩

/-- C9 counterexample: with a panel open and the active editor in
column 2, the start command reveals the panel at the fixed column One,
not at the preferred display column of the spec. -/
theorem reveal_column_counterexample :
    (step openReadyState (Event.start true (some 2))).2 =
        [Effect.revealPanel (some 1)] ∧
    (step openReadyState (Event.start true (some 2))).2 ≠
        [Effect.revealPanel (some (specPreferredColumn (some 2)))] := by
  constructor <;> decide

/-- C9 (amended): whenever a panel exists, both show paths reveal the
existing panel and create no new one; the start command passes the
fixed column One regardless of the active editor, and the panel
controller passes the active editor column when one exists and no
column otherwise. -/
theorem reveal_existing_panel_amended (s : ExtState) (b : Bool)
    (col : Option Nat) (hp : s.currentPanel = true) :
    step s (Event.start b col) = (s, [Effect.revealPanel (some 1)]) ∧
    createOrShowWebviewPanel col s = (s, [Effect.revealPanel col]) := by
  simp [step, lumiStartCommand, createOrShowWebviewPanel, hp]

/-- Witness for the amended C9 with no active editor. -/
theorem reveal_existing_panel_amended_witness :
    step openReadyState (Event.start true none) =
        (openReadyState, [Effect.revealPanel (some 1)]) ∧
    createOrShowWebviewPanel none openReadyState =
        (openReadyState, [Effect.revealPanel none]) :=
  reveal_existing_panel_amended openReadyState true none rfl

/-- C7: the diagnostic stream handler surfaces an error notification
exactly when the line contains the error or warning marker and not the
informational marker; it never changes worker liveness, never kills the
worker, and leaves the readiness flag determined solely by the presence
of the readiness marker. -/
theorem stderr_classification (activeCol : Option Nat) (line : Str)
    (s : ExtState) :
    (stderrOnData activeCol line s).2.any isErrorNotice =
        classifyErrorLine line ∧
    (stderrOnData activeCol line s).1.backendProcess = s.backendProcess ∧
    (stderrOnData activeCol line s).2.any isKillWorker = false ∧
    (stderrOnData activeCol line s).1.isBackendReady =
        (s.isBackendReady || containsSub line readyMarker) := by
  unfold stderrOnData createOrShowWebviewPanel
  cases hm : containsSub line readyMarker <;>
    cases hr : s.isBackendReady <;>
      cases hp : s.currentPanel <;>
        cases hc : classifyErrorLine line <;>
          simp [hm, hr, hp, hc, isErrorNotice, isKillWorker]

/-- Invariant for the readiness-gating proof: along any remaining trace
with at most one start invocation, starting from a state whose open
panel implies the marker was seen and whose live worker implies no
start remains, no panel is created before the marker is observed. -/
theorem panelBeforeMarker_aux :
    ∀ (tr : List Event) (s : ExtState) (seen : Bool),
      countStarts tr ≤ 1 →
      (s.currentPanel = true → seen = true) →
      (1 ≤ countStarts tr → s.backendProcess = false) →
      panelBeforeMarker s seen tr = false := by
  intro tr
  induction tr with
  | nil => intro s seen _ _ _; rfl
  | cons e es ih =>
    intro s seen h1 h2 h3
    cases e with
    | start b col =>
      have hw : s.backendProcess = false := h3 (by simp [countStarts])
      have h1e : countStarts es = 0 := by
        simp [countStarts] at h1; omega
      cases hp : s.currentPanel with
      | true =>
        have hs : seen = true := h2 hp
        simp [panelBeforeMarker, step, lumiStartCommand, hp, isMarkerEvent,
          isCreatePanel, hs]
        exact ih s true (by omega) (fun _ => rfl) (fun h => by omega)
      | false =>
        cases hb : b with
        | false =>
          simp [panelBeforeMarker, step, lumiStartCommand, hp, hw,
            isMarkerEvent, isCreatePanel]
          exact ih s seen (by omega) h2 (fun h => by omega)
        | true =>
          simp [panelBeforeMarker, step, lumiStartCommand, hp, hw,
            isMarkerEvent, isCreatePanel]
          refine ih _ seen (by omega) ?_ (fun h => by omega)
          intro hcp
          simp [hp] at hcp
    | stderrLine col line =>
      have h1e : countStarts es ≤ 1 := by
        simpa [countStarts] using h1
      cases hw : s.backendProcess with
      | false =>
        simp [panelBeforeMarker, step, hw, isMarkerEvent, isCreatePanel]
        exact ih s seen h1e h2 (fun _ => hw)
      | true =>
        have h0 : countStarts es = 0 := by
          by_contra hne
          have hb := h3 (by simp [countStarts]; omega)
          simp [hb] at hw
        cases hm : containsSub line readyMarker with
        | false =>
          simp [panelBeforeMarker, step, hw, isMarkerEvent, hm,
            stderrOnData, isCreatePanel]
          exact ih s seen (by omega) h2 (fun h => by omega)
        | true =>
          cases hr : s.isBackendReady with
          | true =>
            simp [panelBeforeMarker, step, hw, isMarkerEvent, hm, hr,
              stderrOnData, isCreatePanel]
            refine ih s true (by omega) (fun _ => rfl) (fun h => by omega)
          | false =>
            cases hp : s.currentPanel with
            | true =>
              simp [panelBeforeMarker, step, hw, isMarkerEvent, hm, hr, hp,
                stderrOnData, createOrShowWebviewPanel, isCreatePanel]
              exact ih _ true (by omega) (fun _ => rfl) (fun h => by omega)
            | false =>
              simp [panelBeforeMarker, step, hw, isMarkerEvent, hm, hr, hp,
                stderrOnData, createOrShowWebviewPanel, isCreatePanel]
              exact ih _ true (by omega) (fun _ => rfl) (fun h => by omega)
    | workerExit code sig =>
      have h1e : countStarts es ≤ 1 := by simpa [countStarts] using h1
      cases hw : s.backendProcess with
      | false =>
        simp [panelBeforeMarker, step, hw, isMarkerEvent, isCreatePanel]
        exact ih s seen h1e h2 (fun _ => hw)
      | true =>
        cases hp : s.currentPanel with
        | true =>
          simp [panelBeforeMarker, step, hw, hp, processOnExit,
            isMarkerEvent, isCreatePanel]
          refine ih _ seen h1e ?_ (fun _ => rfl)
          intro hcp
          simp at hcp
        | false =>
          simp [panelBeforeMarker, step, hw, hp, processOnExit,
            isMarkerEvent, isCreatePanel]
          refine ih _ seen h1e ?_ (fun _ => rfl)
          intro hcp
          simp [hp] at hcp
    | panelClose =>
      have h1e : countStarts es ≤ 1 := by simpa [countStarts] using h1
      have h3e : 1 ≤ countStarts es → s.backendProcess = false := by
        intro h; exact h3 (by simp [countStarts]; omega)
      cases hp : s.currentPanel with
      | false =>
        simp [panelBeforeMarker, step, hp, isMarkerEvent, isCreatePanel]
        exact ih s seen h1e h2 h3e
      | true =>
        simp [panelBeforeMarker, step, hp, panelOnDidDispose,
          isMarkerEvent, isCreatePanel]
        refine ih _ seen h1e ?_ (by simpa using h3e)
        intro hcp
        simp at hcp
    | spawnError msg =>
      have h1e : countStarts es ≤ 1 := by simpa [countStarts] using h1
      cases hw : s.backendProcess with
      | false =>
        simp [panelBeforeMarker, step, hw, isMarkerEvent, isCreatePanel]
        exact ih s seen h1e h2 (fun _ => hw)
      | true =>
        simp [panelBeforeMarker, step, hw, processOnError,
          isMarkerEvent, isCreatePanel]
        refine ih _ seen h1e ?_ (fun _ => rfl)
        intro hcp
        simp at hcp
        exact h2 hcp

/-- C1 counterexample: from the initial state, invoking the start
command twice while the spawned worker stays silent creates a panel
before the readiness marker has ever been observed, so the claim fails
as stated for traces with repeated start invocations. -/
theorem readiness_gating_counterexample :
    panelBeforeMarker initState false
      [Event.start true none, Event.start true none] = true := by decide

/-- C1 (amended): in every execution trace in which the start command
is invoked at most once, no panel-creation call occurs before the
readiness marker has been observed on the diagnostic stream at least
once. -/
theorem readiness_gating_single_start (tr : List Event)
    (h : countStarts tr ≤ 1) :
    panelBeforeMarker initState false tr = false :=
  panelBeforeMarker_aux tr initState false h
    (fun hcp => by simp [initState] at hcp) (fun _ => rfl)

/-- Witness for the amended C1: one start invocation followed by the
readiness line creates the panel only at the marker observation. -/
theorem readiness_gating_single_start_witness :
    countStarts [Event.start true none,
        Event.stderrLine none readyMarker] ≤ 1 ∧
    panelBeforeMarker initState false [Event.start true none,
        Event.stderrLine none readyMarker] = false :=
  ⟨by decide, readiness_gating_single_start _ (by decide)⟩

/-- C5: a send is accepted exactly when the input is nonempty after
trimming and no request is outstanding; a rejected send changes
nothing, appends nothing and issues no network call; an accepted send
appends exactly the optimistic user entry, raises the single-flight
flag and issues one request carrying the raw input. -/
theorem handleSend_gate (s : ChatState) :
    ((sendBegin s).2.isSome =
        (!(jsTrim s.input).isEmpty && !s.isLoading)) ∧
    ((sendBegin s).2 = none → sendBegin s = (s, none)) ∧
    ((sendBegin s).2.isSome = true →
      (sendBegin s).1 = ⟨[], s.messages ++ [userEntry s.input], true⟩ ∧
        (sendBegin s).2 = some s.input) := by
  cases he : (jsTrim s.input).isEmpty <;> cases hl : s.isLoading <;>
    simp [sendBegin, he, hl]

/-- Chat state with blank input, used as witness input. -/
def blankState : ChatState := ⟨" ".toList, [], false⟩

/-- Chat state with an outstanding request, used as witness input. -/
def busyState : ChatState := ⟨"hi".toList, [], true⟩

/-- Witness for C5: a whitespace-only send and a send during an
outstanding request are both rejected without any change. -/
theorem handleSend_gate_witness :
    sendBegin blankState = (blankState, none) ∧
    sendBegin busyState = (busyState, none) :=
  ⟨(handleSend_gate blankState).2.1 (by decide),
    (handleSend_gate busyState).2.1 (by decide)⟩

/-- Chat state ready to send, used as witness input. -/
def sendableState : ChatState := ⟨"hello".toList, [], false⟩

/-- C6: when the POST or its parse fails, the conversation gains the
optimistic user entry followed by exactly one fixed generic error
entry, no fault escapes (the handler is total and yields an ordinary
state), the single-flight flag ends cleared, and any subsequent
nonblank send is accepted again. -/
theorem handleSend_failure_degrades (s : ChatState) (outcome : PostOutcome)
    (hin : (jsTrim s.input).isEmpty = false) (hload : s.isLoading = false)
    (hfail : outcome = PostOutcome.fetchError ∨
      outcome = PostOutcome.parseError) :
    (handleSend outcome s).1.messages =
        s.messages ++ [userEntry s.input, errorEntry] ∧
    (handleSend outcome s).1.isLoading = false ∧
    (handleSend outcome s).2 = some s.input ∧
    (∀ t : Str, (jsTrim t).isEmpty = false →
      (sendBegin { (handleSend outcome s).1 with input := t }).2 = some t) := by
  have hb : sendBegin s =
      (⟨[], s.messages ++ [userEntry s.input], true⟩, some s.input) := by
    simp [sendBegin, hin, hload]
  refine ⟨?_, ?_, ?_, ?_⟩
  · rcases hfail with h | h <;> subst h <;>
      simp [handleSend, hb, sendComplete]
  · rcases hfail with h | h <;> subst h <;>
      simp [handleSend, hb, sendComplete]
  · simp [handleSend, hb]
  · intro t ht
    have hh : handleSend outcome s =
        (sendComplete outcome
          ⟨[], s.messages ++ [userEntry s.input], true⟩, some s.input) := by
      simp only [handleSend, hb]
    rw [hh]
    rcases hfail with h | h <;> subst h <;>
      simp [sendBegin, sendComplete, ht]

/-- Witness for C6: a network failure on a concrete send degrades to
the error entry, and a retry is accepted. -/
theorem handleSend_failure_degrades_witness :
    (handleSend PostOutcome.fetchError sendableState).1.messages =
        [userEntry "hello".toList, errorEntry] ∧
    (handleSend PostOutcome.fetchError sendableState).1.isLoading = false ∧
    (sendBegin { (handleSend PostOutcome.fetchError sendableState).1 with
        input := "retry".toList }).2 = some "retry".toList := by
  have h := handleSend_failure_degrades sendableState PostOutcome.fetchError
    (by decide) rfl (Or.inl rfl)
  exact ⟨by simpa [sendableState] using h.1, h.2.1,
    h.2.2.2 "retry".toList (by decide)⟩

/-- C10 counterexample: a response body parsing as the JSON value null
defeats the claim as stated. The success-entry construction is the
object literal reading data.message and data.results; on a null body
that property access throws a TypeError, so no success assistant entry
carrying the parsed fields exists for this JSON-parsed body and none
is ever appended, even though neither the network call nor the JSON
parsing threw. -/
theorem parsed_null_body_counterexample :
    buildReply JsonBody.jnull = none := rfl

/-- C10 (amended): for every response body that parses as a JSON
object, the appended assistant entry carries the parsed message and
results fields verbatim, the message field possibly absent; the fixed
generic error entry is appended in the two throwing outcomes; a body
parsing as JSON null instead makes the success-entry construction
itself throw, so no success entry is appended there. -/
theorem handleSend_parsed_object_verbatim (s : ChatState)
    (outcome : PostOutcome)
    (hin : (jsTrim s.input).isEmpty = false) (hload : s.isLoading = false) :
    (∀ m r, outcome = PostOutcome.ok (JsonBody.jobj m r) →
      (handleSend outcome s).1.messages =
        s.messages ++ [userEntry s.input, botReply m r]) ∧
    ((outcome = PostOutcome.fetchError ∨
        outcome = PostOutcome.parseError) →
      (handleSend outcome s).1.messages =
        s.messages ++ [userEntry s.input, errorEntry]) := by
  have hb : sendBegin s =
      (⟨[], s.messages ++ [userEntry s.input], true⟩, some s.input) := by
    simp [sendBegin, hin, hload]
  constructor
  · intro m r hok
    subst hok
    simp [handleSend, hb, sendComplete, buildReply]
  · intro hfail
    rcases hfail with h | h <;> subst h <;>
      simp [handleSend, hb, sendComplete]

/-- Witness for the amended C10: a parsed object body with an absent
message field and one result record is appended verbatim. -/
theorem handleSend_parsed_object_verbatim_witness :
    (handleSend (PostOutcome.ok (JsonBody.jobj none
        (some [⟨"tmp".toList, "/tmp".toList⟩]))) sendableState).1.messages =
      [userEntry "hello".toList,
        botReply none (some [⟨"tmp".toList, "/tmp".toList⟩])] := by
  have h := (handleSend_parsed_object_verbatim sendableState
    (PostOutcome.ok (JsonBody.jobj none
      (some [⟨"tmp".toList, "/tmp".toList⟩])))
    (by decide) rfl).1 none (some [⟨"tmp".toList, "/tmp".toList⟩]) rfl
  simpa [sendableState] using h

/-- The lazy capture consumes a good name exactly up to the closing
quote. -/
theorem scanName_spec : ∀ (n rest : Str), goodName n = true →
    scanName (n ++ '"' :: rest) = some (n, rest) := by
  intro n
  induction n with
  | nil => intro rest _; simp [scanName]
  | cons c cs ih =>
    intro rest h
    have h1 : (!(c = '"' : Bool) && !(isLineTerm c)) = true :=
      List.all_eq_true.mp h c (List.mem_cons_self c cs)
    have h2 : goodName cs = true :=
      List.all_eq_true.mpr
        (fun x hx => List.all_eq_true.mp h x (List.mem_cons_of_mem c hx))
    simp only [Bool.and_eq_true] at h1
    obtain ⟨hq, hl⟩ := h1
    have hq2 : ¬(c = '"') := by simpa using hq
    have hl2 : isLineTerm c = false := by simpa using hl
    simp [scanName, hq2, hl2, ih rest h2]

/-- A successful scan strictly shortens the input. -/
theorem scanName_length : ∀ (cs n rest : Str),
    scanName cs = some (n, rest) → rest.length < cs.length := by
  intro cs
  induction cs with
  | nil => intro n rest h; simp [scanName] at h
  | cons c cs ih =>
    intro n rest h
    simp only [scanName] at h
    split at h
    · cases h
      simp
    · split at h
      · exact absurd h (by simp)
      · cases hs : scanName cs with
        | none => rw [hs] at h; simp at h
        | some p =>
          obtain ⟨n2, r2⟩ := p
          rw [hs] at h
          simp at h
          obtain ⟨h1, h2⟩ := h
          subst h2
          have := ih n2 _ hs
          simp
          omega

/-- Every list is a Boolean prefix of itself followed by anything. -/
theorem isPrefixOf_append_self (t z : Str) :
    List.isPrefixOf t (t ++ z) = true :=
  List.isPrefixOf_iff_prefix.mpr (List.prefix_append t z)

/-- A successful single match strictly shortens the input. -/
theorem tryMatchAttr_length (base : Str) (a : Attr) (cs rep rest : Str)
    (h : tryMatchAttr base a cs = some (rep, rest)) :
    rest.length < cs.length := by
  unfold tryMatchAttr at h
  split at h
  next hpre =>
    cases hs : scanName (cs.drop (a.toStr ++ midStr).length) with
    | none => rw [hs] at h; simp at h
    | some p =>
      obtain ⟨n2, r2⟩ := p
      rw [hs] at h
      simp at h
      obtain ⟨h1, h2⟩ := h
      subst h2
      have hlen := scanName_length _ _ _ hs
      have hple : (a.toStr ++ midStr).length ≤ cs.length :=
        ( List.isPrefixOf_iff_prefix.mp hpre).length_le
      have hpos : 0 < (a.toStr ++ midStr).length := by
        cases a <;> simp [Attr.toStr, midStr]
      simp [List.length_drop] at hlen
      omega
  next => simp at h

/-- A successful match of either alternative strictly shortens the
input. -/
theorem tryMatch_length (base : Str) (cs rep rest : Str)
    (h : tryMatch base cs = some (rep, rest)) : rest.length < cs.length := by
  unfold tryMatch at h
  cases hs : tryMatchAttr base Attr.src cs with
  | some p =>
    obtain ⟨x, y⟩ := p
    rw [hs] at h
    simp at h
    obtain ⟨h1, h2⟩ := h
    subst h1; subst h2
    exact tryMatchAttr_length base Attr.src cs _ _ hs
  | none =>
    rw [hs] at h
    exact tryMatchAttr_length base Attr.href cs rep rest h

/-- The scanner maps empty input to empty output at any fuel. -/
theorem rewriteAux_nil (base : Str) (fuel : Nat) :
    rewriteAux base fuel [] = [] := by
  cases fuel <;> rfl

/-- The scanner result does not depend on the fuel once the fuel covers
the input length. -/
theorem rewriteAux_fuel (base : Str) :
    ∀ (f1 f2 : Nat) (cs : Str), cs.length ≤ f1 → cs.length ≤ f2 →
      rewriteAux base f1 cs = rewriteAux base f2 cs := by
  intro f1
  induction f1 with
  | zero =>
    intro f2 cs h1 _
    have hnil : cs = [] := List.length_eq_zero.mp (Nat.le_zero.mp h1)
    subst hnil
    simp [rewriteAux_nil]
  | succ f ih =>
    intro f2 cs h1 h2
    cases cs with
    | nil => simp [rewriteAux_nil]
    | cons c cs =>
      cases f2 with
      | zero => simp at h2
      | succ g =>
        cases hm : tryMatch base (c :: cs) with
        | some p =>
          obtain ⟨rep, rest⟩ := p
          have hl := tryMatch_length base _ _ _ hm
          simp only [rewriteAux, hm]
          rw [ih g rest (by simp at h1 hl ⊢; omega)
            (by simp at h2 hl ⊢; omega)]
        | none =>
          simp only [rewriteAux, hm]
          rw [ih g cs (by simp at h1; omega) (by simp at h2; omega)]

/-- Scanner step on a leftmost match: emit the replacement and resume
after the match. -/
theorem rewriteAssets_cons_match (base : Str) (cs rep rest : Str)
    (hne : cs ≠ []) (h : tryMatch base cs = some (rep, rest)) :
    rewriteAssets base cs = rep ++ rewriteAssets base rest := by
  cases cs with
  | nil => exact absurd rfl hne
  | cons c cs =>
    have hl := tryMatch_length base _ _ _ h
    unfold rewriteAssets
    simp only [List.length_cons]
    simp only [rewriteAux, h]
    rw [rewriteAux_fuel base cs.length rest.length rest
      (by simp at hl; omega) le_rfl]

/-- Scanner step at a position with no match: copy one character. -/
theorem rewriteAssets_cons_nomatch (base : Str) (c : Char) (cs : Str)
    (h : tryMatch base (c :: cs) = none) :
    rewriteAssets base (c :: cs) = c :: rewriteAssets base cs := by
  unfold rewriteAssets
  simp only [List.length_cons]
  simp only [rewriteAux, h]

/-- A single alternative matches at the head of its own rendered
reference, producing exactly the rewritten reference. -/
theorem tryMatchAttr_hit (base : Str) (a : Attr) (n rest : Str)
    (h : goodName n = true) :
    tryMatchAttr base a ((a.toStr ++ midStr) ++ (n ++ '"' :: rest)) =
      some (renderRefRW base a n, rest) := by
  unfold tryMatchAttr
  rw [isPrefixOf_append_self]
  simp [List.drop_left, scanName_spec n rest h]

/-- The combined pattern matches at the head of a rendered reference,
for either attribute. -/
theorem tryMatch_ref (base : Str) (a : Attr) (n rest : Str)
    (h : goodName n = true) :
    tryMatch base (renderRef a n ++ rest) =
      some (renderRefRW base a n, rest) := by
  cases a with
  | src =>
    have he : renderRef Attr.src n ++ rest =
        (Attr.src.toStr ++ midStr) ++ (n ++ '"' :: rest) := by
      simp [renderRef]
    rw [he]
    unfold tryMatch
    rw [tryMatchAttr_hit base Attr.src n rest h]
  | href =>
    have hs : tryMatchAttr base Attr.src (renderRef Attr.href n ++ rest) =
        none := rfl
    have he : renderRef Attr.href n ++ rest =
        (Attr.href.toStr ++ midStr) ++ (n ++ '"' :: rest) := by
      simp [renderRef]
    unfold tryMatch
    rw [hs, he, tryMatchAttr_hit base Attr.href n rest h]

/-- When neither trigger is a prefix of the input, the pattern does not
match there. -/
theorem tryMatch_none (base cs : Str)
    (h1 : List.isPrefixOf srcTrig cs = false)
    (h2 : List.isPrefixOf hrefTrig cs = false) :
    tryMatch base cs = none := by
  unfold tryMatch tryMatchAttr
  rw [show List.isPrefixOf (Attr.src.toStr ++ midStr) cs = false from h1,
    show List.isPrefixOf (Attr.href.toStr ++ midStr) cs = false from h2]
  rfl

/-- No nonempty proper suffix of either trigger is a prefix of either
trigger: a trigger occurrence cannot straddle a filler boundary. -/
theorem trigDropFact :
    (∀ k, k < 14 → 1 ≤ k →
      List.isPrefixOf (srcTrig.drop k) srcTrig = false ∧
      List.isPrefixOf (srcTrig.drop k) hrefTrig = false) ∧
    (∀ k, k < 15 → 1 ≤ k →
      List.isPrefixOf (hrefTrig.drop k) srcTrig = false ∧
      List.isPrefixOf (hrefTrig.drop k) hrefTrig = false) := by decide

/-- Splitting a prefix relation at an append boundary that falls inside
the prefix. -/
theorem prefix_split (T f2 X : Str) (h : T <+: f2 ++ X)
    (hlen : f2.length ≤ T.length) :
    f2 = T.take f2.length ∧ T.drop f2.length <+: X := by
  obtain ⟨u, hu⟩ := h
  have hf2 : f2 = T.take f2.length := by
    have hx : (f2 ++ X).take f2.length = f2 := List.take_left f2 X
    rw [← hu, List.take_append_of_le_length hlen] at hx
    exact hx.symm
  refine ⟨hf2, u, ?_⟩
  have hT : T = f2 ++ T.drop f2.length := by
    conv_lhs => rw [← List.take_append_drop f2.length T]
    rw [← hf2]
  rw [hT, List.append_assoc] at hu
  exact List.append_cancel_left hu

/-- A short prefix of an appended list is a prefix of the first part. -/
theorem prefix_of_prefix_append (d t z : Str) (h : d <+: t ++ z)
    (hlen : d.length ≤ t.length) : d <+: t := by
  have h1 : d = (t ++ z).take d.length := List.prefix_iff_eq_take.mp h
  rw [List.take_append_of_le_length hlen] at h1
  rw [h1]
  exact List.take_prefix d.length t

/-- Central no-false-match lemma: a trigger is never a prefix of a
nonempty suffix of a good filler followed by a well-formed rest (end of
document or a rendered reference). -/
theorem trig_not_prefix_append (T : Str)
    (hT : T = srcTrig ∨ T = hrefTrig)
    (f2 rest : Str) (hne : f2 ≠ [])
    (hnp : List.isPrefixOf T f2 = false)
    (hrest : RestOk rest) :
    List.isPrefixOf T (f2 ++ rest) = false := by
  cases hb : List.isPrefixOf T (f2 ++ rest) with
  | false => rfl
  | true =>
    exfalso
    have hpre : T <+: f2 ++ rest := List.isPrefixOf_iff_prefix.mp hb
    by_cases hlen : T.length ≤ f2.length
    · have hTf2 : T <+: f2 := prefix_of_prefix_append T f2 rest hpre hlen
      have : List.isPrefixOf T f2 = true := List.isPrefixOf_iff_prefix.mpr hTf2
      rw [hnp] at this
      exact absurd this (by simp)
    · push_neg at hlen
      rcases hrest with hnil | ⟨a, n, r2, hr⟩
      · subst hnil
        have hle := hpre.length_le
        simp at hle
        omega
      · subst hr
        obtain ⟨hf2, hd⟩ :=
          prefix_split T f2 (renderRef a n ++ r2) hpre (le_of_lt hlen)
        have hassoc : renderRef a n ++ r2 =
            (a.toStr ++ midStr) ++ ((n ++ ['"']) ++ r2) := by
          simp [renderRef]
        rw [hassoc] at hd
        have hk1 : 1 ≤ f2.length := by
          cases f2 with
          | nil => exact absurd rfl hne
          | cons x xs => simp
        have hTlen : T.length ≤ 15 := by
          rcases hT with h | h <;> subst h <;> decide
        have htriglen : 14 ≤ (a.toStr ++ midStr).length := by
          cases a <;> decide
        have hdlen : (T.drop f2.length).length ≤ (a.toStr ++ midStr).length := by
          simp [List.length_drop] at htriglen ⊢
          omega
        have hdt : T.drop f2.length <+: a.toStr ++ midStr :=
          prefix_of_prefix_append _ _ _ hd hdlen
        have hdtb : List.isPrefixOf (T.drop f2.length)
            (a.toStr ++ midStr) = true :=
          List.isPrefixOf_iff_prefix.mpr hdt
        rcases hT with h | h <;> subst h
        · have hk14 : f2.length < 14 := by
            have : srcTrig.length = 14 := by decide
            omega
          cases a with
          | src =>
            have hfact := (trigDropFact.1 f2.length hk14 hk1).1
            have hdtb2 : List.isPrefixOf (srcTrig.drop f2.length)
                srcTrig = true := hdtb
            rw [hfact] at hdtb2
            exact absurd hdtb2 (by simp)
          | href =>
            have hfact := (trigDropFact.1 f2.length hk14 hk1).2
            have hdtb2 : List.isPrefixOf (srcTrig.drop f2.length)
                hrefTrig = true := hdtb
            rw [hfact] at hdtb2
            exact absurd hdtb2 (by simp)
        · have hk15 : f2.length < 15 := by
            have : hrefTrig.length = 15 := by decide
            omega
          cases a with
          | src =>
            have hfact := (trigDropFact.2 f2.length hk15 hk1).1
            have hdtb2 : List.isPrefixOf (hrefTrig.drop f2.length)
                srcTrig = true := hdtb
            rw [hfact] at hdtb2
            exact absurd hdtb2 (by simp)
          | href =>
            have hfact := (trigDropFact.2 f2.length hk15 hk1).2
            have hdtb2 : List.isPrefixOf (hrefTrig.drop f2.length)
                hrefTrig = true := hdtb
            rw [hfact] at hdtb2
            exact absurd hdtb2 (by simp)

/-- Propositional form of goodFiller: no suffix has a trigger prefix. -/
def NoTrigSuffix (f : Str) : Prop :=
  ∀ f2, f2 <:+ f → List.isPrefixOf srcTrig f2 = false ∧
    List.isPrefixOf hrefTrig f2 = false

theorem goodFiller_noTrig (f : Str) (h : goodFiller f = true) :
    NoTrigSuffix f := by
  intro f2 hf2
  have hmem : f2 ∈ f.tails := (List.mem_tails f2 f).mpr hf2
  have hp := List.all_eq_true.mp h f2 hmem
  simpa using hp

/-- The scanner copies a good filler unchanged when it is followed by a
well-formed rest. -/
theorem rewrite_skip_filler (base : Str) :
    ∀ (f rest : Str), NoTrigSuffix f → RestOk rest →
      rewriteAssets base (f ++ rest) = f ++ rewriteAssets base rest := by
  intro f
  induction f with
  | nil => intro rest _ _; simp
  | cons c f ih =>
    intro rest hno hrest
    have hsuf := hno (c :: f) (List.suffix_refl _)
    have hmatch : tryMatch base ((c :: f) ++ rest) = none :=
      tryMatch_none base _
        (trig_not_prefix_append srcTrig (Or.inl rfl) (c :: f) rest
          (by simp) hsuf.1 hrest)
        (trig_not_prefix_append hrefTrig (Or.inr rfl) (c :: f) rest
          (by simp) hsuf.2 hrest)
    rw [List.cons_append] at hmatch ⊢
    rw [rewriteAssets_cons_nomatch base c (f ++ rest) hmatch]
    rw [ih rest (fun f2 hf2 => hno f2 (hf2.trans (List.suffix_cons c f)))
      hrest]
    rfl

/-- C8: for every document made of fillers free of the trigger pattern
and of src or href asset references with well-formed names, the
renderer rewrites every reference into an absolute URI rooted at the
translated bundle directory, the same translated root substituted
consistently across all references, and leaves everything else
unchanged. -/
theorem rewriteAssets_rewrites_every_reference (base : Str) :
    ∀ (ps : List (Attr × Str × Str)) (f0 : Str),
      goodFiller f0 = true →
      (∀ p ∈ ps, goodName p.2.1 = true ∧ goodFiller p.2.2 = true) →
      rewriteAssets base (renderDoc f0 ps) = renderDocRW base f0 ps := by
  intro ps
  induction ps with
  | nil =>
    intro f0 hf0 _
    unfold renderDoc renderDocRW renderParts renderPartsRW
    rw [rewrite_skip_filler base f0 [] (goodFiller_noTrig f0 hf0)
      (Or.inl rfl)]
    simp [rewriteAssets, rewriteAux_nil]
  | cons p ps ih =>
    obtain ⟨a, n, f1⟩ := p
    intro f0 hf0 hp
    have hpn : goodName n = true := (hp (a, n, f1) (by simp)).1
    have hpf : goodFiller f1 = true := (hp (a, n, f1) (by simp)).2
    have hps : ∀ q ∈ ps, goodName q.2.1 = true ∧ goodFiller q.2.2 = true :=
      fun q hq => hp q (by simp [hq])
    have hne : renderRef a n ++ (f1 ++ renderParts ps) ≠ [] := by
      cases a <;> simp [renderRef, Attr.toStr, midStr]
    have hih : rewriteAssets base (f1 ++ renderParts ps) =
        f1 ++ renderPartsRW base ps := ih f1 hpf hps
    have hg1 : renderDoc f0 ((a, n, f1) :: ps) =
        f0 ++ (renderRef a n ++ (f1 ++ renderParts ps)) := by
      simp [renderDoc, renderParts, List.append_assoc]
    have hg2 : renderDocRW base f0 ((a, n, f1) :: ps) =
        f0 ++ (renderRefRW base a n ++ (f1 ++ renderPartsRW base ps)) := by
      simp [renderDocRW, renderPartsRW, List.append_assoc]
    rw [hg1, hg2]
    rw [rewrite_skip_filler base f0 (renderRef a n ++ (f1 ++ renderParts ps))
      (goodFiller_noTrig f0 hf0) (Or.inr ⟨a, n, f1 ++ renderParts ps, rfl⟩)]
    rw [rewriteAssets_cons_match base _ (renderRefRW base a n)
      (f1 ++ renderParts ps) hne (tryMatch_ref base a n _ hpn)]
    rw [hih]

/-- Leading filler of the witness document. -/
def docHead : Str := "<html><head><script ".toList

/-- Reference segments of the witness document: a src script and an
href stylesheet, with their trailing fillers. -/
def docParts : List (Attr × Str × Str) :=
  [(Attr.src, "index.js".toList, "></script><link ".toList),
    (Attr.href, "index.css".toList, "></head></html>".toList)]

/-- Witness base URI for the translated bundle directory. -/
def docBase : Str := "vscode-resource:/dist".toList

/-- Witness for C8 on a concrete two-reference document. -/
theorem rewriteAssets_rewrites_every_reference_witness :
    goodFiller docHead = true ∧
    (∀ p ∈ docParts, goodName p.2.1 = true ∧ goodFiller p.2.2 = true) ∧
    rewriteAssets docBase (renderDoc docHead docParts) =
      renderDocRW docBase docHead docParts :=
  ⟨by decide, by decide,
    rewriteAssets_rewrites_every_reference docBase docParts docHead
      (by decide) (by decide)⟩
